import Mathlib

/-!
Verification of the bbuf-rs bipartite ring buffer.

This file is a shallow embedding of `src/tracker.rs`, `src/buffer.rs` and the
relevant behaviour of `src/sink.rs` from the bbuf-rs repository, together with
proofs about the embedded operations.

Machine integers (`usize`) are modelled as `Nat`; all the arithmetic performed
by the code (`write_offset + sz`, `end - start`, `start + len`) stays far below
`usize::MAX`, and the only subtraction (`end - start` in `ReadLease::new`)
happens with `start < end` in every state the code reaches (proved below), so
`Nat` arithmetic coincides with the Rust semantics on those states.
-/

namespace BBuf

/-- The offset-tracking state machine of `src/tracker.rs` (`struct Tracker`).
`capacity` is fixed at construction; `write_offset` is where the next write
begins, `read_offset` where the next read begins, and `inverted_at` is `0`
when the buffer is not inverted, otherwise the index where the data to be
read ends. -/
structure Tracker where
  capacity : Nat
  write_offset : Nat
  read_offset : Nat
  inverted_at : Nat
deriving DecidableEq

/-- Struct `WriteLease` from `src/tracker.rs`: a granted write range `[start, start+len)`. -/
structure WriteLease where
  start : Nat
  len : Nat
deriving DecidableEq

/-- Struct `ReadLease` from `src/tracker.rs`: a granted read range `[start, start+len)`. -/
structure ReadLease where
  start : Nat
  len : Nat
deriving DecidableEq

/-- Constructor `Tracker::new(capacity)`. -/
def Tracker.new (capacity : Nat) : Tracker :=
  ⟨capacity, 0, 0, 0⟩

/-- Method `Tracker::write(&mut self, sz)`. The Rust locals are inlined:
`already_inverted = self.inverted_at > 0` and
`write_cap = if already_inverted { self.read_offset } else { self.capacity }`;
`!already_inverted` is written `inverted_at = 0`. The Rust method mutates
`self` in the flip branch, so the embedding returns the granted lease
together with the post-call tracker. -/
def Tracker.write (t : Tracker) (sz : Nat) : Option (WriteLease × Tracker) :=
  if t.write_offset + sz ≤ (if 0 < t.inverted_at then t.read_offset else t.capacity) then
    -- Simple case: there is enough space contiguous with the current cursor.
    some (⟨t.write_offset, sz⟩, t)
  else if t.inverted_at = 0 ∧ sz ≤ t.read_offset then
    -- Complex case: flip to inverted and grant space at the start.
    some (⟨0, sz⟩, { t with inverted_at := t.write_offset })
  else
    -- No space anywhere.
    none

/-- Method `Tracker::commit(&mut self, w)`. -/
def Tracker.commit (t : Tracker) (w : WriteLease) : Tracker :=
  { t with write_offset := w.start + w.len }

/-- Method `Tracker::read(&mut self)`. The Rust local
`end = if self.inverted_at > 0 { self.inverted_at } else { self.write_offset }`
is inlined; `ReadLease::new(start..end)` stores `len = end - start`. -/
def Tracker.read (t : Tracker) : Option ReadLease :=
  if t.read_offset = (if 0 < t.inverted_at then t.inverted_at else t.write_offset) then
    none
  else
    some ⟨t.read_offset,
      (if 0 < t.inverted_at then t.inverted_at else t.write_offset) - t.read_offset⟩

/-- Method `Tracker::release(&mut self, r)`; `end = r.start + r.len` is inlined. -/
def Tracker.release (t : Tracker) (r : ReadLease) : Tracker :=
  if r.start + r.len = t.write_offset then
    -- Caught up to the writer: reset everything.
    { t with read_offset := 0, write_offset := 0 }
  else if r.start + r.len = t.inverted_at then
    -- Tail of an inverted buffer fully read: move to the start, clear the marker.
    { t with read_offset := 0, inverted_at := 0 }
  else
    { t with read_offset := r.start + r.len }

/-- The byte region plus tracker of `src/buffer.rs` (`struct Buffer`): bytes
are modelled as a `List Nat`. The mutex is not modelled: the Rust code holds
it for the whole of each operation below, so each operation is one atomic
step. -/
structure Buf where
  tracker : Tracker
  data : List Nat
deriving DecidableEq

/-- Function `create(capacity)` from `src/buffer.rs`: a zeroed region of `capacity`
bytes and a fresh tracker. -/
def Buf.new (capacity : Nat) : Buf :=
  ⟨Tracker.new capacity, List.replicate capacity 0⟩

/-- The copy `data[w.start..][..w.len].copy_from_slice(p)` with `w.len == p.len()`:
overwrite `data[start..start+p.length)` with `p`. -/
def copyInto (data : List Nat) (start : Nat) (p : List Nat) : List Nat :=
  data.take start ++ p ++ data.drop (start + p.length)

/-- Method `Writer::try_write(&mut self, p)` from `src/buffer.rs`: ask the tracker
for a lease of `p.len()` bytes; on `None` return `false`, otherwise copy the
payload in, commit, and return `true`. Returns the flag together with the
post-call buffer. -/
def Buf.try_write (b : Buf) (p : List Nat) : Bool × Buf :=
  match b.tracker.write p.length with
  | none => (false, b)
  | some (w, t) => (true, ⟨t.commit w, copyInto b.data w.start p⟩)

/-- Method `Reader::read(&mut self)` from `src/buffer.rs`: ask the tracker for a read
lease; on success return it together with the view `&data[r.start..][..r.len]`.
The tracker is unchanged by `Tracker::read`, so only the lease and view are
returned. -/
def Buf.readLease (b : Buf) : Option (ReadLease × List Nat) :=
  match b.tracker.read with
  | none => none
  | some r => some (r, (b.data.drop r.start).take r.len)

/-- The `Drop for Lease` impl from `src/buffer.rs`: releasing a lease calls
`tracker.release` and leaves the bytes alone. -/
def Buf.releaseLease (b : Buf) (r : ReadLease) : Buf :=
  ⟨b.tracker.release r, b.data⟩

/-- Composition `Tracker::write` immediately followed by `Tracker::commit` of the granted
lease — exactly the tracker traffic of a successful `Writer::try_write`
(`src/buffer.rs` commits every granted lease while still holding the mutex);
a refused write leaves the tracker unchanged. -/
def tryWriteT (t : Tracker) (n : Nat) : Tracker :=
  match t.write n with
  | none => t
  | some (w, t2) => t2.commit w

/-- A tracker together with the at-most-one outstanding read lease
(`src/buffer.rs` enforces a single consumer endpoint, hence at most one
live `Lease`). -/
structure Config where
  tracker : Tracker
  lease : Option ReadLease
deriving DecidableEq

/-- One legal operation of the tracker protocol as driven by `src/buffer.rs`:
a (possibly refused) write immediately committed, taking a read lease when
none is outstanding, or releasing the outstanding lease. -/
inductive Step : Config → Config → Prop where
  | twrite (c : Config) (n : Nat) : Step c ⟨tryWriteT c.tracker n, c.lease⟩
  | tread (c : Config) (r : ReadLease) (h0 : c.lease = none)
      (hr : c.tracker.read = some r) : Step c ⟨c.tracker, some r⟩
  | trelease (c : Config) (r : ReadLease) (h : c.lease = some r) :
      Step c ⟨c.tracker.release r, none⟩

/-- Configurations reachable from `Tracker::new C` by legal operation
sequences. -/
inductive Reachable (C : Nat) : Config → Prop where
  | init : Reachable C ⟨Tracker.new C, none⟩
  | step {c c2 : Config} (h : Reachable C c) (hs : Step c c2) : Reachable C c2

/-- Normal (non-inverted) tracker states. The conjunct
`0 < read_offset → read_offset < write_offset` is the inductive strengthening
needed: the cursors coincide in a normal state only at `0`. -/
def NormalInv (t : Tracker) : Prop :=
  t.inverted_at = 0 ∧ t.read_offset ≤ t.write_offset ∧ t.write_offset ≤ t.capacity ∧
    (0 < t.read_offset → t.read_offset < t.write_offset)

/-- Inverted tracker states. Note `write_offset ≤ read_offset` is not strict:
a committed write can fill the free gap exactly. -/
def InvertedInv (t : Tracker) : Prop :=
  0 < t.inverted_at ∧ t.write_offset ≤ t.read_offset ∧
    t.read_offset < t.inverted_at ∧ t.inverted_at ≤ t.capacity

/-- Tracker invariant with no lease outstanding. -/
def TrackerInv (t : Tracker) : Prop :=
  NormalInv t ∨ InvertedInv t

/-- Tracker invariant while the read lease `r` is outstanding: the read
cursor is pinned at the lease start, the lease is non-empty, and the lease
range sits between the future write frontier and the relevant end marker. -/
def LeaseInv (t : Tracker) (r : ReadLease) : Prop :=
  r.start = t.read_offset ∧ 0 < r.len ∧
    ((t.inverted_at = 0 ∧ r.start + r.len ≤ t.write_offset ∧
        t.write_offset ≤ t.capacity) ∨
      (0 < t.inverted_at ∧ r.start + r.len ≤ t.inverted_at ∧
        t.inverted_at ≤ t.capacity ∧ t.write_offset ≤ r.start))

/-- Full configuration invariant. -/
def ConfigInv (c : Config) : Prop :=
  (c.lease = none → TrackerInv c.tracker) ∧
    (∀ r, c.lease = some r → LeaseInv c.tracker r)

def cfg0 : Config := ⟨Tracker.new 10, none⟩

def cfg1 : Config := ⟨⟨10, 5, 0, 0⟩, none⟩

def cfg2 : Config := ⟨⟨10, 5, 0, 0⟩, some ⟨0, 5⟩⟩

def cfg3 : Config := ⟨⟨10, 8, 0, 0⟩, some ⟨0, 5⟩⟩

def cfg4 : Config := ⟨⟨10, 8, 5, 0⟩, none⟩

def cfg5 : Config := ⟨⟨10, 5, 5, 8⟩, none⟩

/-- The state-machine invariant exactly as the spec's §4.1 states it:
Normal (`inverted_at == 0`, `read_offset ≤ write_offset ≤ C`) or Inverted
with a strict `write_offset < read_offset`. -/
def SpecStateMachineStrict (C : Nat) (t : Tracker) : Prop :=
  (t.inverted_at = 0 ∧ t.read_offset ≤ t.write_offset ∧ t.write_offset ≤ C) ∨
    (0 < t.inverted_at ∧ t.write_offset < t.read_offset ∧
      t.read_offset ≤ t.inverted_at ∧ t.inverted_at ≤ C)

/-- The state-machine invariant with the Inverted case weakened to
`write_offset ≤ read_offset`: a committed write may fill the inverted free
gap `[write_offset, read_offset)` exactly. -/
def SpecStateMachine (C : Nat) (t : Tracker) : Prop :=
  (t.inverted_at = 0 ∧ t.read_offset ≤ t.write_offset ∧ t.write_offset ≤ C) ∨
    (0 < t.inverted_at ∧ t.write_offset ≤ t.read_offset ∧
      t.read_offset ≤ t.inverted_at ∧ t.inverted_at ≤ C)

/-- Payload `"aaaaa"` as bytes. -/
def aBytes : List Nat := [97, 97, 97, 97, 97]

/-- Payload `"bbbb"` as bytes. -/
def bBytes : List Nat := [98, 98, 98, 98]

/-- Payload `"cccc"` as bytes. -/
def cBytes : List Nat := [99, 99, 99, 99]

/-- The buffer after `try_write "aaaaa"` on a fresh capacity-10 buffer. -/
def wrapA : Buf := ((Buf.new 10).try_write aBytes).snd

/-- The buffer after reading the lease `[0,5)` and releasing it. -/
def wrapB : Buf := wrapA.releaseLease ⟨0, 5⟩

/-- The buffer after `try_write "bbbb"`. -/
def wrapC : Buf := (wrapB.try_write bBytes).snd

/-- The buffer after `try_write "cccc"`. -/
def wrapD : Buf := (wrapC.try_write cBytes).snd

/-! ### Characterisation lemmas for the tracker operations -/

@[simp] lemma commit_capacity (t : Tracker) (w : WriteLease) :
    (t.commit w).capacity = t.capacity := rfl

@[simp] lemma commit_write_offset (t : Tracker) (w : WriteLease) :
    (t.commit w).write_offset = w.start + w.len := rfl

@[simp] lemma commit_read_offset (t : Tracker) (w : WriteLease) :
    (t.commit w).read_offset = t.read_offset := rfl

@[simp] lemma commit_inverted_at (t : Tracker) (w : WriteLease) :
    (t.commit w).inverted_at = t.inverted_at := rfl

/-- Lemma: `Tracker::write` grants either the contiguous range at the cursor
(leaving the tracker untouched) or, after flipping to inverted, the range at
the start of the buffer. -/
lemma write_spec {t : Tracker} {n : Nat} {w : WriteLease} {t2 : Tracker}
    (h : t.write n = some (w, t2)) :
    (t.write_offset + n ≤ (if 0 < t.inverted_at then t.read_offset else t.capacity) ∧
        w.start = t.write_offset ∧ w.len = n ∧ t2 = t) ∨
      (¬ t.write_offset + n ≤ (if 0 < t.inverted_at then t.read_offset else t.capacity) ∧
        t.inverted_at = 0 ∧ n ≤ t.read_offset ∧ w.start = 0 ∧ w.len = n ∧
        t2.capacity = t.capacity ∧ t2.write_offset = t.write_offset ∧
        t2.read_offset = t.read_offset ∧ t2.inverted_at = t.write_offset) := by
  unfold Tracker.write at h
  by_cases h1 : t.write_offset + n ≤ (if 0 < t.inverted_at then t.read_offset else t.capacity)
  · rw [if_pos h1] at h
    simp only [Option.some.injEq, Prod.mk.injEq] at h
    obtain ⟨hw, ht⟩ := h
    exact Or.inl ⟨h1, by rw [← hw], by rw [← hw], ht.symm⟩
  · rw [if_neg h1] at h
    by_cases h2 : t.inverted_at = 0 ∧ n ≤ t.read_offset
    · rw [if_pos h2] at h
      simp only [Option.some.injEq, Prod.mk.injEq] at h
      obtain ⟨hw, ht⟩ := h
      exact Or.inr ⟨h1, h2.1, h2.2, by rw [← hw], by rw [← hw],
        by rw [← ht], by rw [← ht], by rw [← ht], by rw [← ht]⟩
    · rw [if_neg h2] at h
      exact Option.noConfusion h

/-- Lemma: `Tracker::write` refuses exactly when neither branch applies. -/
lemma write_none_spec {t : Tracker} {n : Nat} (h : t.write n = none) :
    ¬ t.write_offset + n ≤ (if 0 < t.inverted_at then t.read_offset else t.capacity) ∧
      ¬ (t.inverted_at = 0 ∧ n ≤ t.read_offset) := by
  unfold Tracker.write at h
  by_cases h1 : t.write_offset + n ≤ (if 0 < t.inverted_at then t.read_offset else t.capacity)
  · rw [if_pos h1] at h
    exact Option.noConfusion h
  · rw [if_neg h1] at h
    by_cases h2 : t.inverted_at = 0 ∧ n ≤ t.read_offset
    · rw [if_pos h2] at h
      exact Option.noConfusion h
    · exact ⟨h1, h2⟩

/-- A granted read lease starts at the read cursor and runs to the end
marker. -/
lemma read_spec {t : Tracker} {r : ReadLease} (h : t.read = some r) :
    t.read_offset ≠ (if 0 < t.inverted_at then t.inverted_at else t.write_offset) ∧
      r.start = t.read_offset ∧
      r.len = (if 0 < t.inverted_at then t.inverted_at else t.write_offset) -
        t.read_offset := by
  unfold Tracker.read at h
  by_cases h1 :
      t.read_offset = (if 0 < t.inverted_at then t.inverted_at else t.write_offset)
  · rw [if_pos h1] at h
    exact Option.noConfusion h
  · rw [if_neg h1] at h
    simp only [Option.some.injEq] at h
    exact ⟨h1, by rw [← h], by rw [← h]⟩

/-- The three branches of `Tracker::release`, with the resulting state spelt
out field by field. -/
lemma release_spec (t : Tracker) (r : ReadLease) :
    (r.start + r.len = t.write_offset ∧ (t.release r).write_offset = 0 ∧
        (t.release r).read_offset = 0 ∧ (t.release r).inverted_at = t.inverted_at) ∨
      (r.start + r.len ≠ t.write_offset ∧ r.start + r.len = t.inverted_at ∧
        (t.release r).write_offset = t.write_offset ∧ (t.release r).read_offset = 0 ∧
        (t.release r).inverted_at = 0) ∨
      (r.start + r.len ≠ t.write_offset ∧ r.start + r.len ≠ t.inverted_at ∧
        (t.release r).write_offset = t.write_offset ∧
        (t.release r).read_offset = r.start + r.len ∧
        (t.release r).inverted_at = t.inverted_at) := by
  unfold Tracker.release
  split_ifs with h1 h2
  · exact Or.inl ⟨h1, rfl, rfl, rfl⟩
  · exact Or.inr (Or.inl ⟨h1, h2, rfl, rfl, rfl⟩)
  · exact Or.inr (Or.inr ⟨h1, h2, rfl, rfl, rfl⟩)

@[simp] lemma release_capacity (t : Tracker) (r : ReadLease) :
    (t.release r).capacity = t.capacity := by
  unfold Tracker.release
  split_ifs <;> rfl

lemma write_capacity {t : Tracker} {n : Nat} {w : WriteLease} {t2 : Tracker}
    (h : t.write n = some (w, t2)) : t2.capacity = t.capacity := by
  rcases write_spec h with ⟨-, -, -, ht⟩ | ⟨-, -, -, -, -, ht, -⟩
  · rw [ht]
  · exact ht

@[simp] lemma tryWriteT_capacity (t : Tracker) (n : Nat) :
    (tryWriteT t n).capacity = t.capacity := by
  unfold tryWriteT
  cases hw : t.write n with
  | none => rfl
  | some p =>
    obtain ⟨w, t2⟩ := p
    rw [commit_capacity, write_capacity hw]

/-! ### Preservation of the invariant -/

/-- A committed write preserves the no-lease tracker invariant. -/
lemma trackerInv_tryWriteT (t : Tracker) (n : Nat) (h : TrackerInv t) :
    TrackerInv (tryWriteT t n) := by
  unfold tryWriteT
  cases hw : t.write n with
  | none => exact h
  | some p =>
    obtain ⟨w, t2⟩ := p
    unfold TrackerInv NormalInv InvertedInv at h ⊢
    simp only [commit_capacity, commit_write_offset, commit_read_offset,
      commit_inverted_at]
    rcases write_spec hw with ⟨hle, hws, hwl, ht2⟩ | ⟨hgt, hiv, hn, hws, hwl, htc, htw, htr, hti⟩
    · subst ht2
      rcases h with ⟨h0, h1, h2, h3⟩ | ⟨h0, h1, h2, h3⟩
      · rw [if_neg (by omega)] at hle
        exact Or.inl (by omega)
      · rw [if_pos h0] at hle
        exact Or.inr (by omega)
    · rw [if_neg (by omega)] at hgt
      rcases h with ⟨h0, h1, h2, h3⟩ | ⟨h0, h1, h2, h3⟩
      · exact Or.inr (by omega)
      · omega

/-- A committed write preserves the lease invariant of the outstanding read
lease. -/
lemma leaseInv_tryWriteT (t : Tracker) (n : Nat) (r : ReadLease)
    (h : LeaseInv t r) : LeaseInv (tryWriteT t n) r := by
  unfold tryWriteT
  cases hw : t.write n with
  | none => exact h
  | some p =>
    obtain ⟨w, t2⟩ := p
    unfold LeaseInv at h ⊢
    obtain ⟨hs, hlen, hcase⟩ := h
    simp only [commit_capacity, commit_write_offset, commit_read_offset,
      commit_inverted_at]
    rcases write_spec hw with ⟨hle, hws, hwl, ht2⟩ | ⟨hgt, hiv, hn, hws, hwl, htc, htw, htr, hti⟩
    · subst ht2
      rcases hcase with ⟨h0, h1, h2⟩ | ⟨h0, h1, h2, h3⟩
      · rw [if_neg (by omega)] at hle
        exact ⟨hs, hlen, Or.inl (by omega)⟩
      · rw [if_pos h0] at hle
        exact ⟨hs, hlen, Or.inr (by omega)⟩
    · rw [if_neg (by omega)] at hgt
      rcases hcase with ⟨h0, h1, h2⟩ | ⟨h0, h1, h2, h3⟩
      · exact ⟨by omega, hlen, Or.inr (by omega)⟩
      · omega

/-- A read lease granted in an invariant-satisfying no-lease state satisfies
the lease invariant. -/
lemma leaseInv_read (t : Tracker) (r : ReadLease) (hinv : TrackerInv t)
    (h : t.read = some r) : LeaseInv t r := by
  obtain ⟨hne, hs, hl⟩ := read_spec h
  unfold TrackerInv NormalInv InvertedInv at hinv
  unfold LeaseInv
  rcases hinv with ⟨h0, h1, h2, h3⟩ | ⟨h0, h1, h2, h3⟩
  · rw [if_neg (by omega)] at hne hl
    exact ⟨hs, by omega, Or.inl (by omega)⟩
  · rw [if_pos h0] at hne hl
    exact ⟨hs, by omega, Or.inr (by omega)⟩

/-- Releasing the outstanding lease restores the no-lease tracker
invariant. -/
lemma trackerInv_release (t : Tracker) (r : ReadLease) (h : LeaseInv t r) :
    TrackerInv (t.release r) := by
  unfold LeaseInv at h
  obtain ⟨hs, hlen, hcase⟩ := h
  have hc := release_capacity t r
  unfold TrackerInv NormalInv InvertedInv
  rcases release_spec t r with ⟨he, hw, hr, hi⟩ | ⟨hne, he, hw, hr, hi⟩ |
      ⟨hne1, hne2, hw, hr, hi⟩ <;>
    rcases hcase with ⟨h0, h1, h2⟩ | ⟨h0, h1, h2, h3⟩
  · exact Or.inl (by omega)
  · omega
  · exact Or.inl (by omega)
  · exact Or.inl (by omega)
  · exact Or.inl (by omega)
  · exact Or.inr (by omega)

/-- The configuration invariant holds in every reachable configuration. -/
lemma configInv_reachable {C : Nat} {c : Config} (h : Reachable C c) :
    ConfigInv c := by
  induction h with
  | init =>
    refine ⟨fun _ => Or.inl ?_, fun r hr => Option.noConfusion hr⟩
    unfold NormalInv Tracker.new
    simp
  | step h hs ih =>
    cases hs with
    | twrite n =>
      exact ⟨fun hl => trackerInv_tryWriteT _ _ (ih.1 hl),
        fun r hr => leaseInv_tryWriteT _ _ _ (ih.2 r hr)⟩
    | tread r h0 hr =>
      exact ⟨fun hl => Option.noConfusion hl,
        fun r2 hr2 => by
          cases Option.some.inj hr2
          exact leaseInv_read _ _ (ih.1 h0) hr⟩
    | trelease r hl =>
      exact ⟨fun _ => trackerInv_release _ _ (ih.2 r hl),
        fun r2 hr2 => Option.noConfusion hr2⟩

/-- The capacity field never changes. -/
lemma capacity_reachable {C : Nat} {c : Config} (h : Reachable C c) :
    c.tracker.capacity = C := by
  induction h with
  | init => rfl
  | step h hs ih =>
    cases hs with
    | twrite n => simpa using ih
    | tread r h0 hr => exact ih
    | trelease r hl => simpa using ih

/-! ### Concrete reachable configurations (capacity 10)

A run that interleaves a write with an outstanding read lease, used below as
a concrete input: write 5 and commit; take the read lease `[0,5)`; write 3
and commit while the lease is held; release the lease; then write 5, which
is granted by flipping to inverted and committed. -/

lemma reachable_step_eq {C : Nat} {c c2 c3 : Config} (h : Reachable C c)
    (hs : Step c c2) (he : c2 = c3) : Reachable C c3 :=
  he ▸ Reachable.step h hs


lemma reach_cfg1 : Reachable 10 cfg1 :=
  reachable_step_eq Reachable.init (Step.twrite cfg0 5) (by decide)

lemma reach_cfg2 : Reachable 10 cfg2 :=
  reachable_step_eq reach_cfg1 (Step.tread cfg1 ⟨0, 5⟩ rfl (by decide)) (by decide)

lemma reach_cfg3 : Reachable 10 cfg3 :=
  reachable_step_eq reach_cfg2 (Step.twrite cfg2 3) (by decide)

lemma reach_cfg4 : Reachable 10 cfg4 :=
  reachable_step_eq reach_cfg3 (Step.trelease cfg3 ⟨0, 5⟩ rfl) (by decide)

lemma reach_cfg5 : Reachable 10 cfg5 :=
  reachable_step_eq reach_cfg4 (Step.twrite cfg4 5) (by decide)

/-! ### C1: disjointness of write grants and the outstanding read lease -/

/-- C1. In every configuration reachable by a legal sequence of
write/commit/read/release in which a read lease `[r.start, r.start+r.len)`
is outstanding, every write lease granted by `Tracker::write` has a range
`[w.start, w.start+w.len)` disjoint from the read lease's range. -/
theorem write_grant_disjoint_from_read_lease {C : Nat} {c : Config}
    (hc : Reachable C c) {r : ReadLease} (hl : c.lease = some r) {n : Nat}
    {w : WriteLease} {t2 : Tracker} (hw : c.tracker.write n = some (w, t2)) :
    w.start + w.len ≤ r.start ∨ r.start + r.len ≤ w.start := by
  have hinv := (configInv_reachable hc).2 r hl
  unfold LeaseInv at hinv
  obtain ⟨hs, hlen, hcase⟩ := hinv
  rcases write_spec hw with ⟨hle, hws, hwl, -⟩ | ⟨-, hiv, hn, hws, hwl, -, -, -, -⟩
  · rcases hcase with ⟨h0, h1, h2⟩ | ⟨h0, h1, h2, h3⟩
    · rw [if_neg (by omega)] at hle
      omega
    · rw [if_pos h0] at hle
      omega
  · rcases hcase with ⟨h0, h1, h2⟩ | ⟨h0, h1, h2, h3⟩
    · omega
    · omega

/-- C1 witness: in the reachable configuration `cfg2` (lease `[0,5)`
outstanding), the write of 4 bytes is granted the range `[5,9)`, disjoint
from `[0,5)`. -/
theorem write_grant_disjoint_from_read_lease_witness :
    (⟨5, 4⟩ : WriteLease).start + (⟨5, 4⟩ : WriteLease).len ≤
        (⟨0, 5⟩ : ReadLease).start ∨
      (⟨0, 5⟩ : ReadLease).start + (⟨0, 5⟩ : ReadLease).len ≤
        (⟨5, 4⟩ : WriteLease).start :=
  @write_grant_disjoint_from_read_lease 10 cfg2 reach_cfg2 ⟨0, 5⟩ rfl 4 ⟨5, 4⟩
    ⟨10, 5, 0, 0⟩ (by decide)

/-! ### C2: the two-state state machine -/

/-- C2 counterexample to the claim as stated: the configuration `cfg5`,
whose tracker is `(write_offset 5, read_offset 5, inverted_at 8)`, is
reachable from `Tracker::new 10` by a legal sequence (write 5 · commit ·
read · write 3 · commit · release · write 5 · commit), yet it is inverted
with `write_offset = read_offset`, violating the strict inequality. -/
theorem tracker_state_machine_cex :
    Reachable 10 ⟨⟨10, 5, 5, 8⟩, none⟩ ∧
      ¬ SpecStateMachineStrict 10
        (Config.mk ⟨10, 5, 5, 8⟩ none).tracker := by
  constructor
  · exact reach_cfg5
  · unfold SpecStateMachineStrict
    decide

/-- C2 (amended). After every operation of any legal sequence of
write/commit/read/release starting from `Tracker::new C` with `C > 0`, the
tracker satisfies Normal (`inverted_at = 0 ∧ read_offset ≤ write_offset ≤
C`) or Inverted (`inverted_at > 0 ∧ write_offset ≤ read_offset ≤
inverted_at ≤ C`) — the inequality `write_offset ≤ read_offset` in the
Inverted case is not strict. -/
theorem tracker_state_machine (C : Nat) (hC : 0 < C) {c : Config}
    (hc : Reachable C c) : SpecStateMachine C c.tracker := by
  have hcap := capacity_reachable hc
  have hinv := configInv_reachable hc
  unfold SpecStateMachine
  rcases hl : c.lease with - | r
  · have h := hinv.1 hl
    unfold TrackerInv NormalInv InvertedInv at h
    rcases h with ⟨h0, h1, h2, h3⟩ | ⟨h0, h1, h2, h3⟩
    · exact Or.inl (by omega)
    · exact Or.inr (by omega)
  · have h := hinv.2 r hl
    unfold LeaseInv at h
    obtain ⟨hs, hlen, hcase⟩ := h
    rcases hcase with ⟨h0, h1, h2⟩ | ⟨h0, h1, h2, h3⟩
    · exact Or.inl (by omega)
    · exact Or.inr (by omega)

/-- C2 witness: the amended invariant holds at the concrete reachable
configuration `cfg5`. -/
theorem tracker_state_machine_witness :
    SpecStateMachine 10 (⟨10, 5, 5, 8⟩ : Tracker) :=
  tracker_state_machine 10 (by decide) reach_cfg5

/-! ### C3: the write decision table -/

/-- C3. For every tracker state satisfying the invariants and every `n > 0`,
`Tracker::write n` grants `[write_offset, write_offset+n)` when
`write_offset + n ≤ cap` where `cap = read_offset` if inverted else the
capacity (inclusive comparison: a write exactly filling the remaining space
is accepted); otherwise, when not inverted and `n ≤ read_offset`, it sets
`inverted_at := write_offset` and grants `[0, n)`; otherwise it returns
`None`. -/
theorem write_decision_table (t : Tracker) (n : Nat) (hinv : TrackerInv t)
    (hn : 0 < n) :
    (t.write_offset + n ≤ (if 0 < t.inverted_at then t.read_offset else t.capacity) →
        t.write n = some (⟨t.write_offset, n⟩, t)) ∧
      (¬ t.write_offset + n ≤
          (if 0 < t.inverted_at then t.read_offset else t.capacity) →
        t.inverted_at = 0 → n ≤ t.read_offset →
        t.write n = some (⟨0, n⟩, { t with inverted_at := t.write_offset })) ∧
      (¬ t.write_offset + n ≤
          (if 0 < t.inverted_at then t.read_offset else t.capacity) →
        ¬ (t.inverted_at = 0 ∧ n ≤ t.read_offset) → t.write n = none) := by
  refine ⟨fun h1 => ?_, fun h1 h2a h2b => ?_, fun h1 h2 => ?_⟩ <;>
    unfold Tracker.write
  · rw [if_pos h1]
  · rw [if_neg h1, if_pos ⟨h2a, h2b⟩]
  · rw [if_neg h1, if_neg h2]

/-- C3 witness: in the normal state `(capacity 10, write_offset 6)`, a write
of 4 bytes exactly fills the remaining space and is accepted at `[6,10)`. -/
theorem write_decision_table_witness :
    Tracker.write ⟨10, 6, 0, 0⟩ 4 = some (⟨6, 4⟩, ⟨10, 6, 0, 0⟩) :=
  (write_decision_table ⟨10, 6, 0, 0⟩ 4
    (by unfold TrackerInv NormalInv InvertedInv; decide) (by decide)).1 (by decide)

/-! ### C4: the catch-up reset lands in Normal -/

/-- C4. In every reachable configuration with an outstanding read lease `r`,
if `Tracker::release` takes the catch-up branch (`r.start + r.len =
write_offset`), then the state already has `inverted_at = 0`, and after the
release all of `read_offset`, `write_offset` and `inverted_at` are `0`. -/
theorem catchup_reset_normal {C : Nat} {c : Config} (hc : Reachable C c)
    {r : ReadLease} (hl : c.lease = some r)
    (he : r.start + r.len = c.tracker.write_offset) :
    c.tracker.inverted_at = 0 ∧ (c.tracker.release r).read_offset = 0 ∧
      (c.tracker.release r).write_offset = 0 ∧
      (c.tracker.release r).inverted_at = 0 := by
  have hinv := (configInv_reachable hc).2 r hl
  unfold LeaseInv at hinv
  obtain ⟨hs, hlen, hcase⟩ := hinv
  have h0 : c.tracker.inverted_at = 0 := by
    rcases hcase with ⟨h0, h1, h2⟩ | ⟨h0, h1, h2, h3⟩
    · exact h0
    · omega
  rcases release_spec c.tracker r with ⟨-, hw, hr, hi⟩ | ⟨hne, -, -, -, -⟩ |
      ⟨hne, -, -, -, -⟩
  · exact ⟨h0, hr, hw, by omega⟩
  · exact absurd he hne
  · exact absurd he hne

/-- C4 witness: in the reachable configuration `cfg2` the outstanding lease
`[0,5)` ends exactly at the write offset 5, and releasing it resets all
three offsets to `0`. -/
theorem catchup_reset_normal_witness :
    (⟨10, 5, 0, 0⟩ : Tracker).inverted_at = 0 ∧
      (Tracker.release ⟨10, 5, 0, 0⟩ ⟨0, 5⟩).read_offset = 0 ∧
      (Tracker.release ⟨10, 5, 0, 0⟩ ⟨0, 5⟩).write_offset = 0 ∧
      (Tracker.release ⟨10, 5, 0, 0⟩ ⟨0, 5⟩).inverted_at = 0 :=
  catchup_reset_normal reach_cfg2 rfl (by decide)

/-! ### C5: failure atomicity of `Writer::try_write` -/

/-- C5. `Writer::try_write p` returns `true` exactly when the tracker
accepted the whole payload, and when it returns `false` the buffer — tracker
state and every byte of the byte region — is unchanged; no partial copy of
`p` is ever produced. -/
theorem try_write_atomicity (b : Buf) (p : List Nat) :
    ((b.try_write p).fst = true ↔ (b.tracker.write p.length).isSome = true) ∧
      ((b.try_write p).fst = false → (b.try_write p).snd = b) := by
  unfold Buf.try_write
  cases hw : b.tracker.write p.length with
  | none => simp
  | some q =>
    obtain ⟨w, t⟩ := q
    simp

/-- C5 witness: a concrete refused write (5 bytes into a buffer holding 8
unread bytes of 10) returns `false` and leaves the buffer unchanged. -/
theorem try_write_atomicity_witness :
    (((wrapD.try_write aBytes).fst = true ↔
        (wrapD.tracker.write aBytes.length).isSome = true) ∧
      ((wrapD.try_write aBytes).fst = false →
        (wrapD.try_write aBytes).snd = wrapD)) :=
  try_write_atomicity wrapD aBytes

/-! ### C6: read leases are contiguous, non-empty and in bounds -/

/-- C6. In every reachable configuration, every read lease granted by
`Tracker::read` covers a contiguous non-empty range `[start, start+len)`
with `start < start + len ≤ capacity` (the length computation `end - start`
never underflows), and the view `&data[start..][..len]` taken by
`Reader::read` from the capacity-sized byte region has exactly `len`
bytes — it lies entirely within the region. -/
theorem read_lease_contiguous {C : Nat} {c : Config} (hc : Reachable C c)
    {r : ReadLease} (hr : c.tracker.read = some r) :
    0 < r.len ∧ r.start + r.len ≤ c.tracker.capacity ∧
      ∀ data : List Nat, data.length = c.tracker.capacity →
        ((data.drop r.start).take r.len).length = r.len := by
  have hinv := configInv_reachable hc
  obtain ⟨hne, hs, hl⟩ := read_spec hr
  have hb : (c.tracker.inverted_at = 0 ∧
      c.tracker.read_offset ≤ c.tracker.write_offset ∧
      c.tracker.write_offset ≤ c.tracker.capacity) ∨
      (0 < c.tracker.inverted_at ∧
        c.tracker.read_offset ≤ c.tracker.inverted_at ∧
        c.tracker.inverted_at ≤ c.tracker.capacity) := by
    rcases hl2 : c.lease with - | r0
    · have h := hinv.1 hl2
      unfold TrackerInv NormalInv InvertedInv at h
      rcases h with ⟨h0, h1, h2, h3⟩ | ⟨h0, h1, h2, h3⟩
      · exact Or.inl (by omega)
      · exact Or.inr (by omega)
    · have h := hinv.2 r0 hl2
      unfold LeaseInv at h
      obtain ⟨hs0, hlen0, hcase⟩ := h
      rcases hcase with ⟨h0, h1, h2⟩ | ⟨h0, h1, h2, h3⟩
      · exact Or.inl (by omega)
      · exact Or.inr (by omega)
  rcases hb with ⟨h0, h1, h2⟩ | ⟨h0, h1, h2⟩
  · rw [if_neg (by omega)] at hne hl
    refine ⟨by omega, by omega, fun data hd => ?_⟩
    rw [List.length_take, List.length_drop]
    omega
  · rw [if_pos h0] at hne hl
    refine ⟨by omega, by omega, fun data hd => ?_⟩
    rw [List.length_take, List.length_drop]
    omega

/-- C6 witness: in the reachable configuration `cfg1` the read grants the
lease `[0,5)`, non-empty and within the 10-byte region, and the view taken
from a 10-byte region has exactly 5 bytes. -/
theorem read_lease_contiguous_witness :
    0 < (⟨0, 5⟩ : ReadLease).len ∧
      (⟨0, 5⟩ : ReadLease).start + (⟨0, 5⟩ : ReadLease).len ≤
        cfg1.tracker.capacity ∧
      (((List.replicate 10 0).drop (⟨0, 5⟩ : ReadLease).start).take
        (⟨0, 5⟩ : ReadLease).len).length = (⟨0, 5⟩ : ReadLease).len := by
  have h := @read_lease_contiguous 10 cfg1 reach_cfg1 ⟨0, 5⟩ (by decide)
  exact ⟨h.1, h.2.1, h.2.2 (List.replicate 10 0) (by decide)⟩

/-! ### C7: the capacity-10 wrap scenario -/


/-- C7 counterexample to the claim as stated: with the claim's operation
order (write `"aaaaa"`, read + release, write `"bbbb"`, write `"cccc"`),
both writes are indeed accepted, but the first subsequent read yields the
single lease `[0,8)` whose view is `"bbbbcccc"`, not `"bbbb"`: the release
of `"aaaaa"`'s lease takes the catch-up reset, so no inversion happens and
both payloads are contiguous. -/
theorem wrap_scenario_cex :
    ((Buf.new 10).try_write aBytes).fst = true ∧
      wrapA.readLease = some (⟨0, 5⟩, aBytes) ∧
      (wrapB.try_write bBytes).fst = true ∧
      (wrapC.try_write cBytes).fst = true ∧
      wrapD.readLease = some (⟨0, 8⟩, bBytes ++ cBytes) ∧
      bBytes ++ cBytes ≠ bBytes := by
  decide

/-- C7 (amended). On a capacity-10 buffer: `try_write "aaaaa"` succeeds; the
data is consumed (one read returning the lease `[0,5)` with view `"aaaaa"`,
then its release); `try_write "bbbb"` and `try_write "cccc"` both return
`true` (contiguously — the catch-up reset on release means no inversion is
needed); the first subsequent read yields one lease whose view is
`"bbbbcccc"`, and after its release the next read returns `None`. -/
theorem wrap_scenario_amended :
    ((Buf.new 10).try_write aBytes).fst = true ∧
      wrapA.readLease = some (⟨0, 5⟩, aBytes) ∧
      (wrapB.try_write bBytes).fst = true ∧
      (wrapC.try_write cBytes).fst = true ∧
      wrapD.readLease = some (⟨0, 8⟩, bBytes ++ cBytes) ∧
      (wrapD.releaseLease ⟨0, 8⟩).readLease = none := by
  decide

/-! ### C8: tracker-state effect of an uncommitted write -/

/-- C8 counterexample to the claim as stated: in the reachable tracker state
`(capacity 10, write_offset 8, read_offset 5, inverted_at 0)` (the tracker
of `cfg4`), `Tracker::write 5` grants `[0,5)` via the inversion branch and
already mutates the tracker, setting `inverted_at := 8`; dropping the lease
without commit does not restore the original state. -/
theorem write_flip_mutates_cex :
    Tracker.write ⟨10, 8, 5, 0⟩ 5 = some (⟨0, 5⟩, ⟨10, 8, 5, 8⟩) ∧
      (⟨10, 8, 5, 8⟩ : Tracker) ≠ ⟨10, 8, 5, 0⟩ := by
  decide

/-- C8 (amended). A granted `Tracker::write` never changes `write_offset`,
`read_offset` or `capacity`, and leaves `inverted_at` unchanged as well
except when it grants through the inversion branch, where it sets
`inverted_at := write_offset`. Hence dropping an uncommitted contiguous
grant is a no-op, but an uncommitted inversion grant leaves the inversion
marker behind. -/
theorem write_no_commit_effect (t : Tracker) (n : Nat) (w : WriteLease)
    (t2 : Tracker) (hw : t.write n = some (w, t2)) :
    t2.write_offset = t.write_offset ∧ t2.read_offset = t.read_offset ∧
      t2.capacity = t.capacity ∧
      (t2.inverted_at = t.inverted_at ∨
        (t.inverted_at = 0 ∧ w.start = 0 ∧ t2.inverted_at = t.write_offset)) := by
  rcases write_spec hw with ⟨-, -, -, ht2⟩ | ⟨-, hiv, -, hws, -, htc, htw, htr, hti⟩
  · subst ht2
    exact ⟨rfl, rfl, rfl, Or.inl rfl⟩
  · exact ⟨htw, htr, htc, Or.inr ⟨hiv, hws, hti⟩⟩

/-- C8 witness: a contiguous grant (4 bytes at `write_offset = 5`, capacity
10) leaves the tracker state completely unchanged. -/
theorem write_no_commit_effect_witness :
    (⟨10, 5, 0, 0⟩ : Tracker).write_offset = (⟨10, 5, 0, 0⟩ : Tracker).write_offset ∧
      (⟨10, 5, 0, 0⟩ : Tracker).read_offset = (⟨10, 5, 0, 0⟩ : Tracker).read_offset ∧
      (⟨10, 5, 0, 0⟩ : Tracker).capacity = (⟨10, 5, 0, 0⟩ : Tracker).capacity ∧
      ((⟨10, 5, 0, 0⟩ : Tracker).inverted_at = (⟨10, 5, 0, 0⟩ : Tracker).inverted_at ∨
        ((⟨10, 5, 0, 0⟩ : Tracker).inverted_at = 0 ∧ (⟨5, 4⟩ : WriteLease).start = 0 ∧
          (⟨10, 5, 0, 0⟩ : Tracker).inverted_at = (⟨10, 5, 0, 0⟩ : Tracker).write_offset)) :=
  write_no_commit_effect ⟨10, 5, 0, 0⟩ 4 ⟨5, 4⟩ ⟨10, 5, 0, 0⟩ (by decide)

/-! ### C10: the zero-capacity buffer -/

/-- C10. `create 0` is a total operation yielding a working pair: on the
resulting buffer `try_write` returns `true` exactly for the empty payload,
always leaves the buffer unchanged, and `read` always returns `None` (the
state never changes, so this describes every later call as well). -/
theorem zero_capacity_behaviour (p : List Nat) :
    ((Buf.new 0).try_write p).fst = p.isEmpty ∧
      ((Buf.new 0).try_write p).snd = Buf.new 0 ∧
      (Buf.new 0).readLease = none := by
  refine ⟨?_, ?_, by decide⟩ <;> cases p with
  | nil => decide
  | cons a as =>
    have hw : (Buf.new 0).tracker.write (as.length + 1) = none := by
      unfold Buf.new Tracker.new Tracker.write
      simp
    unfold Buf.try_write
    simp [hw]

/-- C10 witness: the non-empty payload `[7]` is refused and changes nothing,
and the empty buffer reads `None`. -/
theorem zero_capacity_behaviour_witness :
    ((Buf.new 0).try_write [7]).fst = List.isEmpty [7] ∧
      ((Buf.new 0).try_write [7]).snd = Buf.new 0 ∧
      (Buf.new 0).readLease = none :=
  zero_capacity_behaviour [7]

end BBuf
